import Mathlib

/-!
Verification of the session registry, path router and HTTP front door of
`pprofweb` (pprofweb.go), via a shallow embedding.

Modelling conventions:
* Strings are byte sequences, embedded as `List Char` with every character a
  single byte (the inputs we reason about are ASCII); `str` converts a Lean
  string literal.
* Time is measured in whole seconds as `Nat`; `time.AfterFunc d f` armed at
  absolute time `t` is modelled as the deadline `t + d`: the callback fires
  (evicting its session under the registry lock) once the current time
  reaches the deadline, unless `Timer.Reset` moved it.  `elapse reg now`
  applies every timer whose deadline has passed.
* The filesystem is an oracle `stat : Str → StatResult` standing for
  `os.Stat` (`ok` = no error, `errNotExist` = `os.ErrNotExist`, `errOther` =
  any other error), and the pprof driver invocation `driver.PProf` is an
  oracle `LoadResult` (`ok` = nil error, `err` = failure).
* Handler bundles (the gzip-wrapped `http.ServeMux` built in `startHTTP`)
  are opaque and identified by a `Nat`.
All path functions (`pathClean`, `goPathJoin2`, …) are translated from Go's
`path`/`path/filepath` packages with the Unix separator `'/'`, which is what
the program uses on its deployment platform.
-/

/-- Strings as byte lists (all characters we reason about are single bytes). -/
abbrev Str := List Char

/-- Convert a Lean string literal into the byte-list representation. -/
def str (x : String) : Str := x.data

/-- The fixed namespace under which all session traffic lives
(`const pprofWebPath = "/pprofweb/"`). -/
def pprofWebPath : Str := str "/pprofweb/"

/-- `http.MethodGet`. -/
def methodGet : Str := str "GET"

/-- Go `strings.Split(s, "/")`: the substrings between consecutive `'/'`
separators; always returns at least one (possibly empty) element. -/
def splitSeg : Str → List Str
  | [] => [[]]
  | c :: rest =>
    if c = '/' then [] :: splitSeg rest
    else
      match splitSeg rest with
      | [] => [[c]]
      | s₀ :: ss => (c :: s₀) :: ss

/-- Join segments with `'/'` (Go `strings.Join(segs, "/")`). -/
def joinSegs : List Str → Str
  | [] => []
  | [x] => x
  | x :: xs => x ++ '/' :: joinSegs xs

/-- Does the path begin with the separator (`path[0] == '/'`)? -/
def isRooted : Str → Bool
  | '/' :: _ => true
  | _ => false

/-- One step of Go `path.Clean`'s element processing: skip empty and `"."`
elements, let `".."` backtrack over the last real element (a rooted path
drops a `".."` at the top, an unrooted path keeps it), push anything else.
The stack holds the processed elements in reverse order. -/
def cleanPush (rooted : Bool) (stack : List Str) (seg : Str) : List Str :=
  if seg = [] ∨ seg = str "." then stack
  else if seg = str ".." then
    match stack with
    | [] => if rooted then [] else [str ".."]
    | top :: rest => if top = str ".." then seg :: stack else rest
  else seg :: stack

/-- Process all elements of a path, returning them in order. -/
def cleanSegs (rooted : Bool) (segs : List Str) : List Str :=
  (segs.foldl (cleanPush rooted) []).reverse

/-- Go `path.Clean` (equal to `filepath.Clean` on Unix): shortest lexical
equivalent of the path — collapse repeated separators, eliminate `"."` and
resolvable `".."` elements, return `"."` for an empty result. -/
def pathClean (p : Str) : Str :=
  if p = [] then str "."
  else
    let rooted := isRooted p
    let segs := cleanSegs rooted (splitSeg p)
    if rooted then '/' :: joinSegs segs
    else if segs = [] then str "." else joinSegs segs

/-- Go `filepath.Clean` with the Unix separator: identical to `path.Clean`. -/
def filepathClean (p : Str) : Str := pathClean p

/-- Go `path.Join(a, b)` (= `filepath.Join(a, b)` on Unix): ignore empty
arguments, then `Clean` the `'/'`-joined concatenation; all-empty input
yields the empty string. -/
def goPathJoin2 (a b : Str) : Str :=
  if a = [] ∧ b = [] then []
  else if a = [] then pathClean b
  else pathClean (a ++ '/' :: b)

/-- Go `strings.HasSuffix`. -/
def goHasSuffix (p suffix : Str) : Bool := suffix.isSuffixOf p

/-- Go `unicode.IsDigit`-style hex test used by `net/url` (`ishex`). -/
def isHexDigit (c : Char) : Bool :=
  ('0'.toNat ≤ c.toNat ∧ c.toNat ≤ '9'.toNat)
  ∨ ('a'.toNat ≤ c.toNat ∧ c.toNat ≤ 'f'.toNat)
  ∨ ('A'.toNat ≤ c.toNat ∧ c.toNat ≤ 'F'.toNat)

/-- `net/url`'s `unhex`: the value of a hexadecimal digit. -/
def unhex (c : Char) : Nat :=
  if '0'.toNat ≤ c.toNat ∧ c.toNat ≤ '9'.toNat then c.toNat - '0'.toNat
  else if 'a'.toNat ≤ c.toNat ∧ c.toNat ≤ 'f'.toNat then c.toNat - 'a'.toNat + 10
  else c.toNat - 'A'.toNat + 10

/-- Go `url.QueryUnescape`: percent-decode, mapping `'+'` to a space; a `'%'`
not followed by two hexadecimal digits is an `EscapeError` (`none`). -/
def queryUnescape : Str → Option Str
  | [] => some []
  | c :: rest =>
    if c = '%' then
      match rest with
      | c1 :: c2 :: rest2 =>
        if isHexDigit c1 ∧ isHexDigit c2 then
          (queryUnescape rest2).map (fun r => Char.ofNat (unhex c1 * 16 + unhex c2) :: r)
        else none
      | _ => none
    else if c = '+' then (queryUnescape rest).map (fun r => ' ' :: r)
    else (queryUnescape rest).map (fun r => c :: r)

/-- Does the string contain a `'%'` not followed by two hexadecimal digits
(scanning left to right, consuming well-formed escapes)? -/
def hasBadPercent : Str → Bool
  | [] => false
  | c :: rest =>
    if c = '%' then
      match rest with
      | c1 :: c2 :: rest2 =>
        if isHexDigit c1 ∧ isHexDigit c2 then hasBadPercent rest2 else true
      | _ => true
    else hasBadPercent rest

/-- Go `net/url` `shouldEscape(c, encodeQueryComponent)`: letters, digits and
`-`, `_`, `.`, `~` stay unescaped in query components. -/
def shouldEscape (c : Char) : Bool :=
  if ('a'.toNat ≤ c.toNat ∧ c.toNat ≤ 'z'.toNat)
      ∨ ('A'.toNat ≤ c.toNat ∧ c.toNat ≤ 'Z'.toNat)
      ∨ ('0'.toNat ≤ c.toNat ∧ c.toNat ≤ '9'.toNat) then false
  else if c = '-' ∨ c = '_' ∨ c = '.' ∨ c = '~' then false
  else true

/-- Upper-case hexadecimal digit of a value below 16 (`"0123456789ABCDEF"[n]`). -/
def hexUpper (n : Nat) : Char :=
  if n < 10 then Char.ofNat ('0'.toNat + n) else Char.ofNat ('A'.toNat + n - 10)

/-- Go `url.QueryEscape`: a space becomes `'+'`, every other reserved byte
becomes `%XX`. -/
def queryEscape : Str → Str
  | [] => []
  | c :: rest =>
    if c = ' ' then '+' :: queryEscape rest
    else if shouldEscape c then
      '%' :: hexUpper (c.toNat / 16) :: hexUpper (c.toNat % 16) :: queryEscape rest
    else c :: queryEscape rest

/-- `r.URL.Query().Get("profile")` for a present key with raw (once-encoded)
value `raw`: `net/url.ParseQuery` unescapes the value with query semantics and
silently drops the pair when unescaping fails, so `Get` then returns `""`. -/
def queryGet (raw : Str) : Str := (queryUnescape raw).getD []

/-! ## Session registry (`server.pprofHandler` plus the per-session timers) -/

/-- `handlerWithExpire`: the opaque gzip-wrapped mux (identified by `bundle`)
together with the absolute deadline of its inactivity timer. -/
structure Session where
  bundle : Nat
  expiresAt : Nat
deriving DecidableEq

/-- The map `pprofHandler : map[string]*handlerWithExpire`, as an association
list (most recently inserted first). -/
abbrev Registry := List (Str × Session)

/-- Map lookup `s.pprofHandler[id]`. -/
def regFind (reg : Registry) (id : Str) : Option Session :=
  match reg.find? (fun e => e.1 == id) with
  | some e => some e.2
  | none => none

/-- Replace the session stored under `id` (used by the renewal in
`servePprof`: `handler.timer.Reset` changes only the deadline). -/
def regUpdate (reg : Registry) (id : Str) (s₀ : Session) : Registry :=
  reg.map (fun e => if e.1 == id then (e.1, s₀) else e)

/-- Timer model: every timer whose deadline has been reached has fired; its
callback (pprofweb.go lines 75–80) deletes the session under the registry
lock.  `elapse reg now` is the registry once all timers due by `now` fired. -/
def elapse (reg : Registry) (now : Nat) : Registry :=
  reg.filter (fun e => now < e.2.expiresAt)

/-- `server.startHTTP` (the driver's `HTTPServer` callback), at absolute time
`now`, registering the opaque handler bundle under `id = args.Host`.  The
`Bool` is success (`return nil`; the function never fails): an existing `id`
is left untouched, otherwise the bundle is stored with its eviction timer
armed by `time.AfterFunc(time.Second*30, …)`, i.e. deadline `now + 30`
seconds. -/
def startHTTP (reg : Registry) (id : Str) (bundle : Nat) (now : Nat) : Bool × Registry :=
  match regFind reg id with
  | some _ => (true, reg)
  | none => (true, (id, Session.mk bundle (now + 30)) :: reg)

/-- The absolute pattern under which `startHTTP` installs one relative
pattern of the driver's handler map (pprofweb.go lines 61–69). -/
def joinedPattern (id pattern : Str) : Str :=
  if pattern = str "/" then pprofWebPath ++ id ++ str "/"
  else goPathJoin2 (pprofWebPath ++ id ++ str "/") pattern

/-- The first path segment of `t` (everything before the first `'/'`). -/
def firstSeg (t : Str) : Str := t.takeWhile (fun c => !(c == '/'))

/-- The session id extracted by `servePprof` (lines 91–94):
`strings.TrimPrefix(r.URL.Path, pprofWebPath)`, then the part before the
first `'/'` (`strings.Split(id, "/")[0]`). -/
def extractSessionId (urlPath : Str) : Str :=
  let id := if pprofWebPath.isPrefixOf urlPath then urlPath.drop pprofWebPath.length
            else urlPath
  match splitSeg id with
  | first :: _ => first
  | [] => id

/-- Outcome of `servePprof`: either the stored handler bundle serves the
request, or the front door answers 404 "profile handler not loaded". -/
inductive ServeOutcome
  | dispatched (bundle : Nat)
  | notFound
deriving DecidableEq

/-- `server.servePprof` at absolute time `now` with the configured
`profileValidDuration` (seconds): timers due by `now` have fired; a hit
renews the session's timer to `now + validDuration`
(`handler.timer.Reset(s.profileValidDuration)`) and dispatches to its
bundle; a miss is a 404. -/
def servePprof (reg : Registry) (validDuration : Nat) (urlPath : Str) (now : Nat) :
    ServeOutcome × Registry :=
  let id := extractSessionId urlPath
  let live := elapse reg now
  match regFind live id with
  | some s₀ => (ServeOutcome.dispatched s₀.bundle,
                regUpdate live id (Session.mk s₀.bundle (now + validDuration)))
  | none => (ServeOutcome.notFound, live)

/-! ## HTTP front door: `server.rootHandler` -/

/-- Result of the `os.Stat(pprofFilePath)` oracle: no error, an error
satisfying `errors.Is(err, os.ErrNotExist)`, or any other error. -/
inductive StatResult
  | ok
  | errNotExist
  | errOther
deriving DecidableEq

/-- Outcome of the synchronous `driver.PProf(options)` call. -/
inductive LoadResult
  | ok
  | err
deriving DecidableEq

/-- The response written by `rootHandler`, one constructor per `http.Error` /
write site (status codes 405, 404, 200, 400, 400, 404, 500, 303). -/
inductive RootResponse
  | methodNotAllowed
  | notFoundPath
  | landing
  | badDecode
  | badExtension
  | profileNotFound
  | pprofError
  | seeOther (location : Str)
deriving DecidableEq

/-- `server.rootHandler` (pprofweb.go lines 116–187) as a function of the
request method and path, the once-decoded `profile` query parameter
(`r.URL.Query().Get("profile")`, `[]` when absent), the stat oracle, the
loader outcome and the freshly generated session id. -/
def rootHandler (base : Str) (method : Str) (urlPath : Str) (profileQueryParam : Str)
    (stat : Str → StatResult) (load : LoadResult) (id : Str) : RootResponse :=
  if method ≠ methodGet then RootResponse.methodNotAllowed
  else if urlPath ≠ str "/" then RootResponse.notFoundPath
  else if profileQueryParam = [] then RootResponse.landing
  else
    match queryUnescape profileQueryParam with
    | none => RootResponse.badDecode
    | some decoded =>
      let cleaned := filepathClean decoded
      let pprofFilePath := goPathJoin2 base cleaned
      if !goHasSuffix pprofFilePath (str ".pb.gz")
          ∧ !goHasSuffix pprofFilePath (str ".pb.") then
        RootResponse.badExtension
      else if stat pprofFilePath = StatResult.errNotExist then
        RootResponse.profileNotFound
      else
        match load with
        | LoadResult.err => RootResponse.pprofError
        | LoadResult.ok => RootResponse.seeOther (goPathJoin2 pprofWebPath id)

/-! ## Helper lemmas about path splitting, cleaning and joining -/

/-- A plain path element: nonempty, separator-free, neither `"."` nor `".."`.
Session ids (UUID strings) and the pprof driver's pattern segments are all of
this shape. -/
def plainSeg (s₀ : Str) : Prop :=
  s₀ ≠ [] ∧ '/' ∉ s₀ ∧ s₀ ≠ str "." ∧ s₀ ≠ str ".."

instance (s₀ : Str) : Decidable (plainSeg s₀) := by
  unfold plainSeg; infer_instance

theorem splitSeg_ne_nil (t : Str) : splitSeg t ≠ [] := by
  induction t with
  | nil => simp [splitSeg]
  | cons c rest ih =>
    by_cases hc : c = '/'
    · simp [splitSeg, hc]
    · simp only [splitSeg, if_neg hc]
      cases h : splitSeg rest with
      | nil => simp
      | cons s₀ ss => simp

theorem splitSeg_append (xs ys : Str) (h : '/' ∉ xs) :
    splitSeg (xs ++ '/' :: ys) = xs :: splitSeg ys := by
  induction xs with
  | nil => simp [splitSeg]
  | cons c rest ih =>
    have hc : c ≠ '/' := fun hc => h (hc ▸ List.mem_cons_self c rest)
    have hrest : '/' ∉ rest := fun hm => h (List.mem_cons_of_mem c hm)
    simp only [List.cons_append, splitSeg, if_neg hc, List.append_eq]
    rw [ih hrest]

theorem splitSeg_noSlash (xs : Str) (h : '/' ∉ xs) : splitSeg xs = [xs] := by
  induction xs with
  | nil => simp [splitSeg]
  | cons c rest ih =>
    have hc : c ≠ '/' := fun hc => h (hc ▸ List.mem_cons_self c rest)
    have hrest : '/' ∉ rest := fun hm => h (List.mem_cons_of_mem c hm)
    simp only [splitSeg, if_neg hc, ih hrest]

theorem splitSeg_head (t : Str) : ∃ r, splitSeg t = firstSeg t :: r := by
  induction t with
  | nil => exact ⟨[], rfl⟩
  | cons c rest ih =>
    by_cases hc : c = '/'
    · subst hc
      exact ⟨splitSeg rest, by simp [splitSeg, firstSeg]⟩
    · obtain ⟨r, hr⟩ := ih
      refine ⟨r, ?_⟩
      have hb : (c == '/') = false := by simp [hc]
      simp only [splitSeg, if_neg hc, hr, firstSeg, List.takeWhile, hb]
      simp

theorem joinSegs_cons_cons (x y : Str) (ys : List Str) :
    joinSegs (x :: y :: ys) = x ++ '/' :: joinSegs (y :: ys) := by
  rfl

theorem joinSegs_ne_nil (s₀ : Str) (segs : List Str) (h : s₀ ≠ []) :
    joinSegs (s₀ :: segs) ≠ [] := by
  cases segs with
  | nil => simpa [joinSegs]
  | cons y ys =>
    rw [joinSegs_cons_cons]
    cases s₀ with
    | nil => exact absurd rfl h
    | cons a as => simp

theorem splitSeg_joinSegs (segs : List Str) (hne : segs ≠ [])
    (h : ∀ s₀ ∈ segs, '/' ∉ s₀) :
    splitSeg (joinSegs segs) = segs := by
  induction segs with
  | nil => exact absurd rfl hne
  | cons x xs ih =>
    cases xs with
    | nil => exact splitSeg_noSlash x (h x (List.mem_cons_self x []))
    | cons y ys =>
      rw [joinSegs_cons_cons,
        splitSeg_append x _ (h x (List.mem_cons_self x (y :: ys))),
        ih (by simp) (fun s₀ hs => h s₀ (List.mem_cons_of_mem x hs))]

theorem cleanPush_empty (rooted : Bool) (stack : List Str) :
    cleanPush rooted stack [] = stack := by
  simp [cleanPush]

theorem cleanPush_plain (rooted : Bool) (stack : List Str) (s₀ : Str)
    (h : plainSeg s₀) : cleanPush rooted stack s₀ = s₀ :: stack := by
  obtain ⟨h1, _, h3, h4⟩ := h
  simp [cleanPush, h1, h3, h4]

theorem foldl_cleanPush_plain (rooted : Bool) (segs : List Str)
    (h : ∀ s₀ ∈ segs, plainSeg s₀) (stack : List Str) :
    segs.foldl (cleanPush rooted) stack = segs.reverse ++ stack := by
  induction segs generalizing stack with
  | nil => simp
  | cons x xs ih =>
    rw [List.foldl_cons, cleanPush_plain rooted stack x (h x (List.mem_cons_self x xs)),
      ih (fun s₀ hs => h s₀ (List.mem_cons_of_mem x hs))]
    simp

/-- Routing extracts the first path segment after the namespace prefix. -/
theorem extractSessionId_append (tail : Str) :
    extractSessionId (pprofWebPath ++ tail) = firstSeg tail := by
  unfold extractSessionId
  have hpre : pprofWebPath.isPrefixOf (pprofWebPath ++ tail) = true := by
    rw [List.isPrefixOf_iff_prefix]
    exact List.prefix_append pprofWebPath tail
  rw [if_pos hpre, List.drop_left]
  obtain ⟨r, hr⟩ := splitSeg_head tail
  simp [hr]

theorem firstSeg_stops (id rest : Str) (h : '/' ∉ id) :
    firstSeg (id ++ '/' :: rest) = id := by
  induction id with
  | nil => simp [firstSeg, List.takeWhile]
  | cons c cs ih =>
    have hc : (c == '/') = false := by
      simp only [beq_eq_false_iff_ne, ne_eq]
      exact fun hc => h (hc ▸ List.mem_cons_self c cs)
    have := ih (fun hm => h (List.mem_cons_of_mem c hm))
    simp only [firstSeg, List.cons_append, List.takeWhile, hc] at this ⊢
    simp [this]

theorem firstSeg_noSlash (id : Str) (h : '/' ∉ id) : firstSeg id = id := by
  induction id with
  | nil => rfl
  | cons c cs ih =>
    have hc : (c == '/') = false := by
      simp only [beq_eq_false_iff_ne, ne_eq]
      exact fun hc => h (hc ▸ List.mem_cons_self c cs)
    have := ih (fun hm => h (List.mem_cons_of_mem c hm))
    simp only [firstSeg, List.takeWhile, hc] at this ⊢
    simp [this]

/-! ## Helper lemmas about the registry -/

theorem regFind_cons_self (reg : Registry) (id : Str) (s₀ : Session) :
    regFind ((id, s₀) :: reg) id = some s₀ := by
  simp [regFind, List.find?]

theorem regFind_of_mem_keys (reg : Registry) (id : Str) (s₀ : Session)
    (h : regFind reg id = some s₀) : ∃ e ∈ reg, e.1 = id := by
  unfold regFind at h
  cases hf : reg.find? (fun e => e.1 == id) with
  | none => rw [hf] at h; exact absurd h (by simp)
  | some e =>
    have hm := List.mem_of_find?_eq_some hf
    have hp := List.find?_some hf
    simp only [beq_iff_eq] at hp
    exact ⟨e, hm, hp⟩

theorem elapse_sublist (reg : Registry) (now : Nat) (e : Str × Session)
    (h : e ∈ elapse reg now) : e ∈ reg :=
  (List.mem_filter.mp h).1

/-! ## Helper lemmas about percent-encoding -/

theorem hexUpper_spec : ∀ n : Nat, n < 16 →
    isHexDigit (hexUpper n) = true ∧ unhex (hexUpper n) = n ∧ (hexUpper n).toNat < 256 := by
  decide

theorem qU_cons (c : Char) (rest : Str) :
    queryUnescape (c :: rest)
      = if c = '%' then
          (match rest with
           | c1 :: c2 :: rest2 =>
             if isHexDigit c1 ∧ isHexDigit c2 then
               (queryUnescape rest2).map (fun r => Char.ofNat (unhex c1 * 16 + unhex c2) :: r)
             else none
           | _ => none)
        else if c = '+' then (queryUnescape rest).map (fun r => ' ' :: r)
        else (queryUnescape rest).map (fun r => c :: r) := by
  cases rest with
  | nil => rfl
  | cons a as =>
    cases as with
    | nil => rfl
    | cons b bs => rfl

theorem hBP_cons (c : Char) (rest : Str) :
    hasBadPercent (c :: rest)
      = if c = '%' then
          (match rest with
           | c1 :: c2 :: rest2 =>
             if isHexDigit c1 ∧ isHexDigit c2 then hasBadPercent rest2 else true
           | _ => true)
        else hasBadPercent rest := by
  cases rest with
  | nil => rfl
  | cons a as =>
    cases as with
    | nil => rfl
    | cons b bs => rfl

theorem qU_pct (c1 c2 : Char) (rest2 : Str) :
    queryUnescape ('%' :: c1 :: c2 :: rest2)
      = if isHexDigit c1 ∧ isHexDigit c2 then
          (queryUnescape rest2).map (fun r => Char.ofNat (unhex c1 * 16 + unhex c2) :: r)
        else none := rfl

theorem hBP_pct (c1 c2 : Char) (rest2 : Str) :
    hasBadPercent ('%' :: c1 :: c2 :: rest2)
      = if isHexDigit c1 ∧ isHexDigit c2 then hasBadPercent rest2 else true := rfl

theorem queryUnescape_eq_none_of_hasBadPercent (q : Str) (hbad : hasBadPercent q = true) :
    queryUnescape q = none := by
  suffices H : ∀ n (q : Str), q.length ≤ n → hasBadPercent q = true → queryUnescape q = none from
    H q.length q le_rfl hbad
  intro n
  induction n with
  | zero =>
    intro q hlen h
    rw [List.length_eq_zero.mp (Nat.le_zero.mp hlen)] at h
    exact absurd h (by simp [hasBadPercent])
  | succ n ih =>
    intro q hlen h
    cases q with
    | nil => exact absurd h (by simp [hasBadPercent])
    | cons c rest =>
      by_cases hc : c = '%'
      · subst hc
        cases rest with
        | nil => rfl
        | cons c1 r1 =>
          cases r1 with
          | nil => rfl
          | cons c2 r2 =>
            rw [hBP_pct] at h
            rw [qU_pct]
            by_cases hhex : isHexDigit c1 = true ∧ isHexDigit c2 = true
            · rw [if_pos hhex] at h ⊢
              have hr2 : r2.length ≤ n := by
                simp only [List.length_cons] at hlen; omega
              rw [ih r2 hr2 h]
              rfl
            · rw [if_neg hhex]
      · rw [hBP_cons, if_neg hc] at h
        have hr : rest.length ≤ n := by
          simp only [List.length_cons] at hlen; omega
        rw [qU_cons, if_neg hc, ih rest hr h]
        by_cases hp : c = '+' <;> simp [hp]

theorem queryUnescape_queryEscape (v : Str) (h : ∀ c ∈ v, c.toNat < 256) :
    queryUnescape (queryEscape v) = some v := by
  induction v with
  | nil => rfl
  | cons c rest ih =>
    have hc : c.toNat < 256 := h c (List.mem_cons_self c rest)
    have hrest := ih (fun x hx => h x (List.mem_cons_of_mem c hx))
    by_cases hsp : c = ' '
    · subst hsp
      rw [queryEscape, if_pos rfl, qU_cons, if_neg (by decide), if_pos rfl, hrest]
      rfl
    · by_cases hesc : shouldEscape c = true
      · have hdiv : c.toNat / 16 < 16 := by omega
        have hmod : c.toNat % 16 < 16 := Nat.mod_lt _ (by norm_num)
        obtain ⟨hh1, hu1, -⟩ := hexUpper_spec _ hdiv
        obtain ⟨hh2, hu2, -⟩ := hexUpper_spec _ hmod
        have hval : unhex (hexUpper (c.toNat / 16)) * 16 + unhex (hexUpper (c.toNat % 16))
            = c.toNat := by rw [hu1, hu2]; omega
        simp only [queryEscape, if_neg hsp, if_pos hesc]
        rw [qU_cons, if_pos rfl]
        simp [hh1, hh2, hrest, hval]
      · have h1 : c ≠ '%' := fun hq => hesc (by rw [hq]; decide)
        have h2 : c ≠ '+' := fun hq => hesc (by rw [hq]; decide)
        have hesc2 : shouldEscape c = false := by simpa using hesc
        simp only [queryEscape, if_neg hsp, hesc2, Bool.false_eq_true, if_false]
        rw [qU_cons, if_neg h1, if_neg h2, hrest]
        rfl

theorem queryEscape_bytes (v : Str) (h : ∀ c ∈ v, c.toNat < 256) :
    ∀ c ∈ queryEscape v, c.toNat < 256 := by
  induction v with
  | nil => simp [queryEscape]
  | cons c rest ih =>
    have hc : c.toNat < 256 := h c (List.mem_cons_self c rest)
    have hrest := ih (fun x hx => h x (List.mem_cons_of_mem c hx))
    intro x hx
    by_cases hsp : c = ' '
    · subst hsp
      rw [queryEscape, if_pos rfl] at hx
      rcases List.mem_cons.mp hx with hx | hx
      · subst hx; decide
      · exact hrest x hx
    · by_cases hesc : shouldEscape c = true
      · have hdiv : c.toNat / 16 < 16 := by omega
        have hmod : c.toNat % 16 < 16 := Nat.mod_lt _ (by norm_num)
        obtain ⟨-, -, hb1⟩ := hexUpper_spec _ hdiv
        obtain ⟨-, -, hb2⟩ := hexUpper_spec _ hmod
        simp only [queryEscape, if_neg hsp, if_pos hesc] at hx
        rcases List.mem_cons.mp hx with hx | hx
        · subst hx; decide
        rcases List.mem_cons.mp hx with hx | hx
        · subst hx; exact hb1
        rcases List.mem_cons.mp hx with hx | hx
        · subst hx; exact hb2
        · exact hrest x hx
      · have hesc2 : shouldEscape c = false := by simpa using hesc
        simp only [queryEscape, if_neg hsp, hesc2, Bool.false_eq_true, if_false] at hx
        rcases List.mem_cons.mp hx with hx | hx
        · subst hx; exact hc
        · exact hrest x hx

/-! ## Lemmas packaging servePprof's two outcomes -/

theorem servePprof_hit (reg : Registry) (T : Nat) (p : Str) (now : Nat) (s₀ : Session)
    (hfind : regFind (elapse reg now) (extractSessionId p) = some s₀) :
    servePprof reg T p now
      = (ServeOutcome.dispatched s₀.bundle,
         regUpdate (elapse reg now) (extractSessionId p) (Session.mk s₀.bundle (now + T))) := by
  simp only [servePprof, hfind]

theorem servePprof_miss (reg : Registry) (T : Nat) (p : Str) (now : Nat)
    (hfind : regFind (elapse reg now) (extractSessionId p) = none) :
    servePprof reg T p now = (ServeOutcome.notFound, elapse reg now) := by
  simp only [servePprof, hfind]

/-! ## The claims -/

/-- C1 (code bug): cleaning the decoded `profile` parameter does **not**
confine the joined path to the base profiles directory.  `filepath.Clean`
keeps leading `..` elements, so the parameter `../../secret.pb.gz` joins to
`/secret.pb.gz`, outside base `/profiles`, and the handler proceeds to stat
and load that outside file (responding 303) — contradicting the code's own
comment "prevent a user entering a path like ../../foo" and the spec.  The
claim's concrete example does hold: `../../etc/passwd` is answered 400
whatever the stat oracle says, but only because of the extension check. -/
theorem pprofweb_c1_path_traversal :
    filepathClean (str "../../secret.pb.gz") = str "../../secret.pb.gz"
    ∧ goPathJoin2 (str "/profiles") (filepathClean (str "../../secret.pb.gz"))
        = str "/secret.pb.gz"
    ∧ (str "/profiles/").isPrefixOf (str "/secret.pb.gz") = false
    ∧ rootHandler (str "/profiles") methodGet (str "/") (str "../../secret.pb.gz")
        (fun _ => StatResult.ok) LoadResult.ok (str "abc")
      = RootResponse.seeOther (str "/pprofweb/abc")
    ∧ (∀ stat load id,
        rootHandler (str "/profiles") methodGet (str "/") (str "../../etc/passwd")
          stat load id = RootResponse.badExtension) :=
  ⟨by decide, by decide, by decide, by decide, fun _ _ _ => rfl⟩

/-- C2 (code bug): `startHTTP` arms the eviction timer with a hardcoded
`time.Second*30`, not the configured valid duration: with the flag default
of 30 minutes (1800 s) a freshly created session is already gone at t = 60 s
without activity, although a successful lookup does renew to `now + 1800`.
This contradicts the `valid` flag's documented semantics. -/
theorem pprofweb_c2_creation_expiry :
    (startHTTP [] (str "abc") 7 0).2 = [(str "abc", Session.mk 7 30)]
    ∧ servePprof ((startHTTP [] (str "abc") 7 0).2) 1800 (str "/pprofweb/abc/") 60
        = (ServeOutcome.notFound, [])
    ∧ (servePprof ((startHTTP [] (str "abc") 7 0).2) 1800 (str "/pprofweb/abc/") 10).2
        = [(str "abc", Session.mk 7 1810)] :=
  ⟨by decide, by decide, by decide⟩

/-- C3 (confirmed): registration is idempotent — registering the same id
twice with different bundles reports success both times, leaves the first
bundle in place, and a later lookup under the session's path dispatches to
the first bundle. -/
theorem pprofweb_c3_idempotent_create (reg : Registry) (id : Str) (b1 b2 : Nat)
    (t1 t2 t3 T : Nat) (hfresh : regFind reg id = none) (hdiff : b1 ≠ b2)
    (hid1 : id ≠ []) (hid2 : '/' ∉ id) (hlive : t3 < t1 + 30) :
    (startHTTP reg id b1 t1).1 = true
    ∧ (startHTTP (startHTTP reg id b1 t1).2 id b2 t2).1 = true
    ∧ (startHTTP (startHTTP reg id b1 t1).2 id b2 t2).2 = (startHTTP reg id b1 t1).2
    ∧ (servePprof (startHTTP (startHTTP reg id b1 t1).2 id b2 t2).2 T
        (pprofWebPath ++ id ++ str "/") t3).1 = ServeOutcome.dispatched b1 := by
  have h1 : startHTTP reg id b1 t1 = (true, (id, Session.mk b1 (t1 + 30)) :: reg) := by
    unfold startHTTP; rw [hfresh]
  have h2 : startHTTP ((id, Session.mk b1 (t1 + 30)) :: reg) id b2 t2
      = (true, (id, Session.mk b1 (t1 + 30)) :: reg) := by
    unfold startHTTP; rw [regFind_cons_self]
  have hex : extractSessionId (pprofWebPath ++ id ++ str "/") = id := by
    have harr : pprofWebPath ++ id ++ str "/" = pprofWebPath ++ (id ++ '/' :: []) := by
      simp [str]
    rw [harr, extractSessionId_append, firstSeg_stops id [] hid2]
  have hel : elapse ((id, Session.mk b1 (t1 + 30)) :: reg) t3
      = (id, Session.mk b1 (t1 + 30)) :: elapse reg t3 := by
    simp [elapse, List.filter_cons, hlive]
  refine ⟨by rw [h1], by rw [h1, h2], by rw [h1, h2], ?_⟩
  rw [h1, h2]
  have hfind : regFind (elapse ((id, Session.mk b1 (t1 + 30)) :: reg) t3)
      (extractSessionId (pprofWebPath ++ id ++ str "/")) = some (Session.mk b1 (t1 + 30)) := by
    rw [hex, hel, regFind_cons_self]
  rw [servePprof_hit _ _ _ _ _ hfind]

/-- Witness for C3 at a concrete input. -/
theorem pprofweb_c3_witness :
    (servePprof (startHTTP (startHTTP [] (str "abc") 1 0).2 (str "abc") 2 5).2 1800
        (pprofWebPath ++ str "abc" ++ str "/") 20).1 = ServeOutcome.dispatched 1 :=
  (pprofweb_c3_idempotent_create [] (str "abc") 1 2 0 5 20 1800 (by decide) (by decide)
      (by decide) (by decide) (by decide)).2.2.2

/-- C4 (confirmed): a request under the namespace prefix whose first segment
after the prefix is empty, or names no live session, is answered by the
front door's 404 and no handler bundle is dispatched (session ids stored in
the registry are nonempty UUID strings). -/
theorem pprofweb_c4_unknown_session (reg : Registry) (T : Nat) (p : Str) (now : Nat)
    (hids : ∀ e ∈ reg, e.1 ≠ ([] : Str))
    (hmiss : extractSessionId p = [] ∨ regFind (elapse reg now) (extractSessionId p) = none) :
    servePprof reg T p now = (ServeOutcome.notFound, elapse reg now) := by
  have hnone : regFind (elapse reg now) (extractSessionId p) = none := by
    rcases hmiss with hempty | hnone
    · rw [hempty]
      cases hf : regFind (elapse reg now) [] with
      | none => rfl
      | some s₀ =>
        obtain ⟨e, hmem, hkey⟩ := regFind_of_mem_keys _ _ _ hf
        exact absurd hkey (hids e (elapse_sublist reg now e hmem))
    · exact hnone
  exact servePprof_miss reg T p now hnone

/-- Witness for C4 at the spec's concrete input. -/
theorem pprofweb_c4_witness :
    servePprof [] 1800 (str "/pprofweb/does-not-exist/") 0 = (ServeOutcome.notFound, []) := by
  have h := pprofweb_c4_unknown_session [] 1800 (str "/pprofweb/does-not-exist/") 0
      (by simp) (Or.inr (by decide))
  simpa using h

/-! ## Path cleaning of a namespaced pattern -/

theorem splitSeg_slash (ys : Str) : splitSeg ('/' :: ys) = [] :: splitSeg ys := by
  simp [splitSeg]

theorem pathClean_rooted (tail : Str) :
    pathClean ('/' :: tail) = '/' :: joinSegs (cleanSegs true (splitSeg ('/' :: tail))) := by
  simp [pathClean, isRooted]

theorem pathClean_namespaced (id : Str) (segs : List Str) (hid : plainSeg id)
    (hsegs : segs ≠ []) (hall : ∀ s₀ ∈ segs, plainSeg s₀) :
    pathClean (pprofWebPath ++ id ++ str "/" ++ '/' :: '/' :: joinSegs segs)
      = pprofWebPath ++ id ++ '/' :: joinSegs segs := by
  have hpw : plainSeg (str "pprofweb") := by decide
  have hnoslash : ∀ s₀ ∈ segs, '/' ∉ s₀ := fun s₀ hs => (hall s₀ hs).2.1
  have e1 : pprofWebPath ++ id ++ str "/" ++ '/' :: '/' :: joinSegs segs
      = '/' :: (str "pprofweb" ++ '/' :: (id ++ '/' :: ('/' :: ('/' :: joinSegs segs)))) := by
    simp [pprofWebPath, str]
  rw [e1, pathClean_rooted]
  have hsplit : splitSeg ('/' :: (str "pprofweb"
        ++ '/' :: (id ++ '/' :: ('/' :: ('/' :: joinSegs segs)))))
      = [] :: str "pprofweb" :: id :: [] :: [] :: segs := by
    rw [splitSeg_slash, splitSeg_append _ _ hpw.2.1, splitSeg_append _ _ hid.2.1,
      splitSeg_slash, splitSeg_slash, splitSeg_joinSegs segs hsegs hnoslash]
  rw [hsplit]
  have hclean : cleanSegs true ([] :: str "pprofweb" :: id :: [] :: [] :: segs)
      = str "pprofweb" :: id :: segs := by
    unfold cleanSegs
    rw [List.foldl_cons, cleanPush_empty, List.foldl_cons, cleanPush_plain _ _ _ hpw,
      List.foldl_cons, cleanPush_plain _ _ _ hid, List.foldl_cons, cleanPush_empty,
      List.foldl_cons, cleanPush_empty, foldl_cleanPush_plain _ _ hall]
    simp
  rw [hclean]
  cases segs with
  | nil => exact absurd rfl hsegs
  | cons s0 ss =>
    rw [joinSegs_cons_cons, joinSegs_cons_cons]
    simp [pprofWebPath, str]

/-- C5 (confirmed): `startHTTP` installs a relative pattern of the loader
under the namespace prefix, the session id and the pattern; the root pattern
`"/"` maps to exactly the session's own root `prefix ++ id ++ "/"`; and
`servePprof` extracts the session id as the first path segment after the
namespace prefix. -/
theorem pprofweb_c5_namespacing (id pattern : Str) (segs : List Str) :
    (pattern = str "/" → joinedPattern id pattern = pprofWebPath ++ id ++ str "/")
    ∧ (plainSeg id → segs ≠ [] → (∀ s₀ ∈ segs, plainSeg s₀) →
        pattern = '/' :: joinSegs segs →
        joinedPattern id pattern = pprofWebPath ++ id ++ pattern)
    ∧ (∀ tail : Str, extractSessionId (pprofWebPath ++ tail) = firstSeg tail) := by
  refine ⟨fun hp => by rw [hp, joinedPattern, if_pos rfl], ?_, extractSessionId_append⟩
  intro hid hsegs hall hp
  subst hp
  have hne : ('/' :: joinSegs segs) ≠ str "/" := by
    cases segs with
    | nil => exact absurd rfl hsegs
    | cons s0 ss =>
      intro hcontra
      have htail : joinSegs (s0 :: ss) = [] := by
        have := congrArg List.tail hcontra
        simpa [str] using this
      exact joinSegs_ne_nil s0 ss (hall s0 (List.mem_cons_self s0 ss)).1 htail
  have ha : pprofWebPath ++ id ++ str "/" ≠ [] := by simp [pprofWebPath, str]
  rw [joinedPattern, if_neg hne, goPathJoin2, if_neg (fun hand => ha hand.1), if_neg ha]
  exact pathClean_namespaced id segs hid hsegs hall

/-- Witness for C5 at a concrete pprof pattern. -/
theorem pprofweb_c5_witness :
    joinedPattern (str "abc") (str "/") = str "/pprofweb/abc/"
    ∧ joinedPattern (str "abc") (str "/flamegraph") = str "/pprofweb/abc/flamegraph"
    ∧ extractSessionId (str "/pprofweb/abc/flamegraph") = str "abc" := by
  refine ⟨?_, ?_, ?_⟩
  · rw [(pprofweb_c5_namespacing (str "abc") (str "/") []).1 rfl]
    decide
  · rw [(pprofweb_c5_namespacing (str "abc") (str "/flamegraph") [str "flamegraph"]).2.1
      (by decide) (by decide) (by decide) (by decide)]
    decide
  · rw [(by decide : str "/pprofweb/abc/flamegraph" = pprofWebPath ++ str "abc/flamegraph"),
      (pprofweb_c5_namespacing (str "abc") (str "/flamegraph") [str "flamegraph"]).2.2
        (str "abc/flamegraph")]
    decide

/-- Unfolding of `rootHandler` for a GET of `/` with a nonempty parameter. -/
theorem rootHandler_main (base q : Str) (stat : Str → StatResult) (load : LoadResult)
    (id : Str) (hq : q ≠ []) :
    rootHandler base methodGet (str "/") q stat load id
      = match queryUnescape q with
        | none => RootResponse.badDecode
        | some decoded =>
          if !goHasSuffix (goPathJoin2 base (filepathClean decoded)) (str ".pb.gz")
              ∧ !goHasSuffix (goPathJoin2 base (filepathClean decoded)) (str ".pb.") then
            RootResponse.badExtension
          else if stat (goPathJoin2 base (filepathClean decoded)) = StatResult.errNotExist then
            RootResponse.profileNotFound
          else
            match load with
            | LoadResult.err => RootResponse.pprofError
            | LoadResult.ok => RootResponse.seeOther (goPathJoin2 pprofWebPath id) := by
  rw [rootHandler.eq_def, if_neg (fun h => h rfl), if_neg (fun h => h rfl), if_neg hq]

/-- C6 (confirmed): the complete response taxonomy of the root handler — 405
for every non-GET method; 404 for every root-level path other than `/`; 200
(landing page) when the `profile` parameter is absent; 400 when it fails the
explicit decode or the extension allow-list; 404 when stat reports the file
missing; 500 when the loader fails; 303 to the namespaced session root on
success. -/
theorem pprofweb_c6_response_taxonomy (base m p q : Str) (stat : Str → StatResult)
    (load : LoadResult) (id : Str) :
    (m ≠ methodGet → rootHandler base m p q stat load id = RootResponse.methodNotAllowed)
    ∧ (m = methodGet → p ≠ str "/" →
        rootHandler base m p q stat load id = RootResponse.notFoundPath)
    ∧ (m = methodGet → p = str "/" → q = [] →
        rootHandler base m p q stat load id = RootResponse.landing)
    ∧ (m = methodGet → p = str "/" → q ≠ [] → queryUnescape q = none →
        rootHandler base m p q stat load id = RootResponse.badDecode)
    ∧ (∀ d, m = methodGet → p = str "/" → q ≠ [] → queryUnescape q = some d →
        goHasSuffix (goPathJoin2 base (filepathClean d)) (str ".pb.gz") = false →
        goHasSuffix (goPathJoin2 base (filepathClean d)) (str ".pb.") = false →
        rootHandler base m p q stat load id = RootResponse.badExtension)
    ∧ (∀ d, m = methodGet → p = str "/" → q ≠ [] → queryUnescape q = some d →
        (goHasSuffix (goPathJoin2 base (filepathClean d)) (str ".pb.gz") = true
          ∨ goHasSuffix (goPathJoin2 base (filepathClean d)) (str ".pb.") = true) →
        stat (goPathJoin2 base (filepathClean d)) = StatResult.errNotExist →
        rootHandler base m p q stat load id = RootResponse.profileNotFound)
    ∧ (∀ d, m = methodGet → p = str "/" → q ≠ [] → queryUnescape q = some d →
        (goHasSuffix (goPathJoin2 base (filepathClean d)) (str ".pb.gz") = true
          ∨ goHasSuffix (goPathJoin2 base (filepathClean d)) (str ".pb.") = true) →
        stat (goPathJoin2 base (filepathClean d)) ≠ StatResult.errNotExist →
        load = LoadResult.err →
        rootHandler base m p q stat load id = RootResponse.pprofError)
    ∧ (∀ d, m = methodGet → p = str "/" → q ≠ [] → queryUnescape q = some d →
        (goHasSuffix (goPathJoin2 base (filepathClean d)) (str ".pb.gz") = true
          ∨ goHasSuffix (goPathJoin2 base (filepathClean d)) (str ".pb.") = true) →
        stat (goPathJoin2 base (filepathClean d)) ≠ StatResult.errNotExist →
        load = LoadResult.ok →
        rootHandler base m p q stat load id
          = RootResponse.seeOther (goPathJoin2 pprofWebPath id)) := by
  refine ⟨?_, ?_, ?_, ?_, ?_, ?_, ?_, ?_⟩
  · intro hm
    rw [rootHandler.eq_def, if_pos hm]
  · intro hm hp
    subst hm
    rw [rootHandler.eq_def, if_neg (fun h => h rfl), if_pos hp]
  · intro hm hp hq
    subst hm; subst hp
    rw [rootHandler.eq_def, if_neg (fun h => h rfl), if_neg (fun h => h rfl), if_pos hq]
  · intro hm hp hq hdec
    subst hm; subst hp
    rw [rootHandler_main base q stat load id hq, hdec]
  · intro d hm hp hq hdec h1 h2
    subst hm; subst hp
    rw [rootHandler_main base q stat load id hq, hdec]
    simp [h1, h2]
  · intro d hm hp hq hdec hsuf hstat
    subst hm; subst hp
    rw [rootHandler_main base q stat load id hq, hdec]
    rcases hsuf with h | h <;> simp [h, hstat]
  · intro d hm hp hq hdec hsuf hstat hload
    subst hm; subst hp
    rw [rootHandler_main base q stat load id hq, hdec]
    rcases hsuf with h | h <;> simp [h, hstat, hload]
  · intro d hm hp hq hdec hsuf hstat hload
    subst hm; subst hp
    rw [rootHandler_main base q stat load id hq, hdec]
    rcases hsuf with h | h <;> simp [h, hstat, hload]

/-- Witness for C6 at a concrete input (wrong method). -/
theorem pprofweb_c6_witness :
    rootHandler (str ".") (str "POST") (str "/") [] (fun _ => StatResult.ok) LoadResult.ok []
      = RootResponse.methodNotAllowed :=
  (pprofweb_c6_response_taxonomy (str ".") (str "POST") (str "/") [] (fun _ => StatResult.ok)
      LoadResult.ok []).1 (by decide)

/-- C8 (confirmed): the allow-list check accepts exactly the joined paths
ending in `.pb.gz` or `.pb.` (trailing dot); a parameter naming an existing
`trace.pb` file is still a 400, and the suffix test runs on the fully joined
path (parameter `.` passes when the base itself ends in `.pb.gz`). -/
theorem pprofweb_c8_extension_allowlist :
    (∀ base q d stat load id, q ≠ [] → queryUnescape q = some d →
      (rootHandler base methodGet (str "/") q stat load id = RootResponse.badExtension
        ↔ (goHasSuffix (goPathJoin2 base (filepathClean d)) (str ".pb.gz") = false
           ∧ goHasSuffix (goPathJoin2 base (filepathClean d)) (str ".pb.") = false)))
    ∧ rootHandler (str "/profiles") methodGet (str "/") (str "trace.pb")
        (fun _ => StatResult.ok) LoadResult.ok (str "abc") = RootResponse.badExtension
    ∧ goHasSuffix (str "/profiles/trace.pb") (str ".pb") = true
    ∧ rootHandler (str "/profiles/x.pb.gz") methodGet (str "/") (str ".")
        (fun _ => StatResult.ok) LoadResult.ok (str "abc")
        = RootResponse.seeOther (str "/pprofweb/abc")
    ∧ goHasSuffix (str ".") (str ".pb.gz") = false := by
  refine ⟨?_, by decide, by decide, by decide, by decide⟩
  intro base q d stat load id hq hdec
  rw [rootHandler_main base q stat load id hq, hdec]
  cases h1 : goHasSuffix (goPathJoin2 base (filepathClean d)) (str ".pb.gz") with
  | true =>
    simp only [h1]
    constructor
    · intro hcontra
      cases hst : stat (goPathJoin2 base (filepathClean d)) <;>
        cases load <;> simp [hst, h1] at hcontra
    · intro hcontra
      exact absurd hcontra.1 (by simp [h1])
  | false =>
    cases h2 : goHasSuffix (goPathJoin2 base (filepathClean d)) (str ".pb.") with
    | true =>
      simp only [h1, h2]
      constructor
      · intro hcontra
        cases hst : stat (goPathJoin2 base (filepathClean d)) <;>
          cases load <;> simp [hst, h1, h2] at hcontra
      · intro hcontra
        exact absurd hcontra.2 (by simp [h2])
    | false =>
      simp [h1, h2]

/-- Witness for C8 at the spec's `notes.txt` example. -/
theorem pprofweb_c8_witness :
    rootHandler (str "/profiles") methodGet (str "/") (str "notes.txt")
        (fun _ => StatResult.ok) LoadResult.ok (str "abc") = RootResponse.badExtension :=
  (pprofweb_c8_extension_allowlist.1 (str "/profiles") (str "notes.txt") (str "notes.txt")
      (fun _ => StatResult.ok) LoadResult.ok (str "abc") (by decide) (by decide)).mpr
    ⟨by decide, by decide⟩

/-- C9 (confirmed): the parameter is percent-decoded twice (query parsing,
then the explicit `url.QueryUnescape`): a once-decoded value containing a
`'%'` not followed by two hexadecimal digits draws a 400, and a doubly
percent-encoded value decodes back to its fully decoded form. -/
theorem pprofweb_c9_double_decode :
    (∀ base q stat load id, hasBadPercent q = true →
        rootHandler base methodGet (str "/") q stat load id = RootResponse.badDecode)
    ∧ (∀ v : Str, (∀ c ∈ v, c.toNat < 256) →
        queryGet (queryEscape (queryEscape v)) = queryEscape v
        ∧ queryUnescape (queryEscape v) = some v) := by
  constructor
  · intro base q stat load id hbad
    have hq : q ≠ [] := by
      intro h
      rw [h] at hbad
      exact absurd hbad (by decide)
    rw [rootHandler_main base q stat load id hq,
      queryUnescape_eq_none_of_hasBadPercent q hbad]
  · intro v hv
    have h1 := queryUnescape_queryEscape v hv
    have h2 := queryUnescape_queryEscape (queryEscape v) (queryEscape_bytes v hv)
    exact ⟨by rw [queryGet, h2]; rfl, h1⟩

/-- Witness for C9 at concrete inputs. -/
theorem pprofweb_c9_witness :
    rootHandler (str "/profiles") methodGet (str "/") (str "%zz")
        (fun _ => StatResult.ok) LoadResult.ok (str "abc") = RootResponse.badDecode
    ∧ queryUnescape (queryEscape (str "a b.pb.gz")) = some (str "a b.pb.gz") :=
  ⟨pprofweb_c9_double_decode.1 (str "/profiles") (str "%zz") (fun _ => StatResult.ok)
      LoadResult.ok (str "abc") (by decide),
   (pprofweb_c9_double_decode.2 (str "a b.pb.gz") (by decide)).2⟩

/-- C10 (confirmed): only a stat error satisfying `errors.Is(err,
os.ErrNotExist)` produces the 404; any other stat failure falls through to
the loader, surfacing (if at all) as the loader's 500. -/
theorem pprofweb_c10_stat_failure (base q d : Str) (stat : Str → StatResult)
    (load : LoadResult) (id : Str) (hq : q ≠ []) (hdec : queryUnescape q = some d)
    (hsuf : goHasSuffix (goPathJoin2 base (filepathClean d)) (str ".pb.gz") = true
          ∨ goHasSuffix (goPathJoin2 base (filepathClean d)) (str ".pb.") = true) :
    (rootHandler base methodGet (str "/") q stat load id = RootResponse.profileNotFound
        ↔ stat (goPathJoin2 base (filepathClean d)) = StatResult.errNotExist)
    ∧ (stat (goPathJoin2 base (filepathClean d)) = StatResult.errOther →
        rootHandler base methodGet (str "/") q stat load id
          = match load with
            | LoadResult.err => RootResponse.pprofError
            | LoadResult.ok => RootResponse.seeOther (goPathJoin2 pprofWebPath id)) := by
  rw [rootHandler_main base q stat load id hq, hdec]
  constructor
  · constructor
    · intro hcontra
      cases hst : stat (goPathJoin2 base (filepathClean d)) <;>
        [skip; rfl; skip] <;>
        rcases hsuf with h | h <;> cases load <;> simp [hst, h] at hcontra
    · intro hst
      rcases hsuf with h | h <;> simp [hst, h]
  · intro hst
    rcases hsuf with h | h <;> cases load <;> simp [hst, h]

/-- Witness for C10 at a concrete input. -/
theorem pprofweb_c10_witness :
    rootHandler (str "/profiles") methodGet (str "/") (str "x.pb.gz")
        (fun _ => StatResult.errOther) LoadResult.err (str "abc")
      = RootResponse.pprofError := by
  have h := (pprofweb_c10_stat_failure (str "/profiles") (str "x.pb.gz") (str "x.pb.gz")
      (fun _ => StatResult.errOther) LoadResult.err (str "abc") (by decide) (by decide)
      (Or.inl (by decide))).2 rfl
  exact h
